import Mathlib

/-!
Verification of the chat-bot automation core: a shallow embedding of the
workflow state machine, the control caches, the edit-stabilization
detectors, the keyword control matcher and the click executor, with
theorems settling the specification claims about them.

Time is modelled by an explicit rational-valued clock passed to every
operation that reads the wall clock in the source (a synthetic clock);
Python floats become rationals, Python dicts become association lists
(ordered association lists where the source relies on insertion order),
and the remote transport is modelled by an oracle giving the outcome of
each attempted remote call.
-/

/-- Association-list lookup with decidable equality on the key
(the model of Python dict lookup: first matching key wins). -/
def alookup {α : Type} : List (ℕ × α) → ℕ → Option α
  | [], _ => none
  | p :: l, k => if p.1 = k then some p.2 else alookup l k

/-- Lowercasing of a character-list string, the model of Python str.lower. -/
def lowerStr (s : List Char) : List Char := s.map Char.toLower

/-- Contiguous-substring test, the model of the Python `in` operator on
strings: `substrMatch needle hay` is true when `needle` occurs
contiguously inside `hay` (the empty needle always matches). -/
def substrMatch (needle : List Char) : List Char → Bool
  | [] => needle.isPrefixOf []
  | c :: rest => needle.isPrefixOf (c :: rest) || substrMatch needle rest

/- ## Workflow state machine (src/modules/state_machine.py) -/

/-- States of the automation process (class AutomationState). -/
inductive AutomationState
  | IDLE
  | STEP_1
  | STEP_2
  | STEP_3
  | COMPLETED
  | ERROR
deriving DecidableEq, Repr

/-- The keyword context passed to StateMachine.transition_to: the source
passes at most one of the three message-id fields per call. -/
inductive TransitionContext
  | noContext
  | triggerMessageId (id : ℕ)
  | step1MessageId (id : ℕ)
  | step2MessageId (id : ℕ)
deriving DecidableEq, Repr

/-- One entry of StateMachine.state_history:
(from-state, to-state, timestamp, reason). -/
structure HistoryEntry where
  fromState : AutomationState
  toState : AutomationState
  timestamp : ℚ
  reason : String
deriving DecidableEq, Repr

/-- The mutable state of class StateMachine. -/
structure StateMachine where
  current_state : AutomationState
  previous_state : Option AutomationState
  step_1_timeout : ℚ
  step_2_timeout : ℚ
  step_3_timeout : ℚ
  state_entered_at : Option ℚ
  trigger_message_id : Option ℕ
  step_1_message_id : Option ℕ
  step_2_message_id : Option ℕ
  total_runs : ℕ
  successful_runs : ℕ
  failed_runs : ℕ
  state_history : List HistoryEntry
deriving DecidableEq, Repr

/-- StateMachine.__init__. -/
def StateMachine.init (step_1_timeout step_2_timeout step_3_timeout : ℚ) : StateMachine where
  current_state := .IDLE
  previous_state := none
  step_1_timeout := step_1_timeout
  step_2_timeout := step_2_timeout
  step_3_timeout := step_3_timeout
  state_entered_at := none
  trigger_message_id := none
  step_1_message_id := none
  step_2_message_id := none
  total_runs := 0
  successful_runs := 0
  failed_runs := 0
  state_history := []

/-- Application of the **context kwargs of transition_to (setattr loop). -/
def StateMachine.applyContext (sm : StateMachine) : TransitionContext → StateMachine
  | .noContext => sm
  | .triggerMessageId id => { sm with trigger_message_id := some id }
  | .step1MessageId id => { sm with step_1_message_id := some id }
  | .step2MessageId id => { sm with step_2_message_id := some id }

/-- StateMachine.transition_to: sets previous/current state and the entry
timestamp, applies the context kwargs, appends to the history, then runs
the special handling for IDLE (context reset), COMPLETED (successful_runs)
and ERROR (failed_runs).  The source performs the requested transition
unconditionally: there is no legality check anywhere in this method. -/
def StateMachine.transition_to (sm : StateMachine) (new_state : AutomationState)
    (reason : String) (now : ℚ) (ctx : TransitionContext) : StateMachine :=
  let old_state := sm.current_state
  let sm1 := { sm with
    previous_state := some old_state
    current_state := new_state
    state_entered_at := some now }
  let sm2 := sm1.applyContext ctx
  let sm3 := { sm2 with
    state_history := sm2.state_history ++ [⟨old_state, new_state, now, reason⟩] }
  if new_state = AutomationState.IDLE then
    { sm3 with
      trigger_message_id := none
      step_1_message_id := none
      step_2_message_id := none }
  else if new_state = AutomationState.COMPLETED then
    { sm3 with successful_runs := sm3.successful_runs + 1 }
  else if new_state = AutomationState.ERROR then
    { sm3 with failed_runs := sm3.failed_runs + 1 }
  else sm3

/-- StateMachine.reset. -/
def StateMachine.reset (sm : StateMachine) (now : ℚ) : StateMachine :=
  sm.transition_to .IDLE "Manual reset" now .noContext

/-- StateMachine.is_idle. -/
def StateMachine.is_idle (sm : StateMachine) : Bool :=
  sm.current_state == .IDLE

/-- StateMachine.is_active. -/
def StateMachine.is_active (sm : StateMachine) : Bool :=
  [AutomationState.STEP_1, AutomationState.STEP_2, AutomationState.STEP_3].contains
    sm.current_state

/-- StateMachine.start_automation: increments total_runs and transitions
to STEP_1 carrying the trigger message id. -/
def StateMachine.start_automation (sm : StateMachine) (trigger_message_id : ℕ)
    (now : ℚ) : StateMachine :=
  let sm1 := { sm with total_runs := sm.total_runs + 1 }
  sm1.transition_to .STEP_1 "Trigger detected" now (.triggerMessageId trigger_message_id)

/-- StateMachine.complete_step_1. -/
def StateMachine.complete_step_1 (sm : StateMachine) (step_1_message_id : ℕ)
    (now : ℚ) : StateMachine :=
  sm.transition_to .STEP_2 "Step 1 completed" now (.step1MessageId step_1_message_id)

/-- StateMachine.complete_step_2. -/
def StateMachine.complete_step_2 (sm : StateMachine) (step_2_message_id : ℕ)
    (now : ℚ) : StateMachine :=
  sm.transition_to .STEP_3 "Step 2 completed" now (.step2MessageId step_2_message_id)

/-- StateMachine.complete_automation. -/
def StateMachine.complete_automation (sm : StateMachine) (now : ℚ) : StateMachine :=
  sm.transition_to .COMPLETED "All steps completed" now .noContext

/- ## Fast stabilization detector
(src/modules/fast_stabilization_detector.py) -/

/-- The mutable state of class FastStabilizationDetector.  The strategy is
kept as the raw string the source compares against; `last_edits` maps a
message id to its last monotonic edit time, `edit_times` to its bounded
edit-time history (front = oldest, deque with maxlen = max_history). -/
structure FastStabilizationDetector where
  threshold : ℚ
  strategy : String
  max_history : ℕ
  last_edits : List (ℕ × ℚ)
  edit_times : List (ℕ × List ℚ)
deriving DecidableEq, Repr

/-- FastStabilizationDetector.__init__. -/
def FastStabilizationDetector.init (threshold : ℚ) (strategy : String)
    (max_history : ℕ) : FastStabilizationDetector where
  threshold := threshold
  strategy := strategy
  max_history := max_history
  last_edits := []
  edit_times := []

/-- FastStabilizationDetector.record_edit at synthetic monotonic time
`now`: stores `now` as the last edit time, and for the predict strategy
appends `now` to the bounded history deque. -/
def FastStabilizationDetector.record_edit (d : FastStabilizationDetector)
    (message_id : ℕ) (now : ℚ) : FastStabilizationDetector :=
  let le := (message_id, now) :: d.last_edits.filter (fun p => p.1 != message_id)
  if d.strategy = "predict" then
    let h := (alookup d.edit_times message_id).getD []
    let h2 := h ++ [now]
    let h3 := if h2.length > d.max_history then h2.drop (h2.length - d.max_history) else h2
    { d with
      last_edits := le
      edit_times := (message_id, h3) :: d.edit_times.filter (fun p => p.1 != message_id) }
  else
    { d with last_edits := le }

/-- Mean of the consecutive inter-edit intervals of an edit-time history,
the model of the `intervals`/`avg_interval` computation in
FastStabilizationDetector.is_stabilized (predict branch). -/
def meanInterval (h : List ℚ) : ℚ :=
  let intervals := List.zipWith (fun a b => a - b) h.tail h
  intervals.sum / (intervals.length : ℚ)

/-- FastStabilizationDetector.is_stabilized queried at synthetic monotonic
time `now`. -/
def FastStabilizationDetector.is_stabilized (d : FastStabilizationDetector)
    (message_id : ℕ) (now : ℚ) : Bool :=
  match alookup d.last_edits message_id with
  | none => false
  | some last_edit =>
    let time_since_last := now - last_edit
    if d.strategy = "aggressive" then
      decide (time_since_last ≥ d.threshold * (1 / 2))
    else if d.strategy = "wait" then
      decide (time_since_last ≥ d.threshold)
    else if d.strategy = "predict" then
      if time_since_last < d.threshold then false
      else
        match alookup d.edit_times message_id with
        | none => decide (time_since_last ≥ d.threshold)
        | some history =>
          if history.length < 2 then decide (time_since_last ≥ d.threshold)
          else decide (time_since_last > meanInterval history * 2)
    else false

/-- FastStabilizationDetector.get_time_since_last_edit queried at `now`. -/
def FastStabilizationDetector.get_time_since_last_edit
    (d : FastStabilizationDetector) (message_id : ℕ) (now : ℚ) : Option ℚ :=
  (alookup d.last_edits message_id).map (fun last_edit => now - last_edit)

/-- FastStabilizationDetector.clear_history for a specific message id. -/
def FastStabilizationDetector.clear_history (d : FastStabilizationDetector)
    (message_id : ℕ) : FastStabilizationDetector :=
  { d with
    last_edits := d.last_edits.filter (fun p => p.1 != message_id)
    edit_times := d.edit_times.filter (fun p => p.1 != message_id) }

/- ## Fast button analyzer (src/modules/fast_button_analyzer.py) -/

/-- Class ButtonInfo of fast_button_analyzer: a control with its label,
opaque callback payload, grid position, and the lowercase label
pre-computed by the constructor. -/
structure FastButtonInfo where
  text : List Char
  callback_data : List ℕ
  row : ℕ
  column : ℕ
  text_lower : List Char
deriving DecidableEq, Repr

/-- ButtonInfo.__init__: `_text_lower` is the lowercased label. -/
def FastButtonInfo.mk' (text : List Char) (callback_data : List ℕ)
    (row column : ℕ) : FastButtonInfo where
  text := text
  callback_data := callback_data
  row := row
  column := column
  text_lower := lowerStr text

/-- ButtonInfo.matches_keyword: case-insensitive substring test against
the pre-computed lowercase label (the keyword is already lowercased by
the caller). -/
def FastButtonInfo.matches_keyword (b : FastButtonInfo) (keyword_lower : List Char) : Bool :=
  substrMatch keyword_lower b.text_lower

/-- FastButtonAnalyzer.find_button_by_keywords inner loop: scan controls
in list order; for each control scan the lowercased keywords in supplied
order; the first control with a matching keyword wins. -/
def findButtonLoop (keywords_lower : List (List Char)) :
    List FastButtonInfo → Option FastButtonInfo
  | [] => none
  | b :: rest =>
    match keywords_lower.find? (fun k => b.matches_keyword k) with
    | some _ => some b
    | none => findButtonLoop keywords_lower rest

/-- FastButtonAnalyzer.find_button_by_keywords: answers none on an empty
keyword or control list, otherwise lowercases the keywords once and runs
the scan loop. -/
def find_button_by_keywords (buttons : List FastButtonInfo)
    (keywords : List (List Char)) : Option FastButtonInfo :=
  if keywords.isEmpty || buttons.isEmpty then none
  else findButtonLoop (keywords.map lowerStr) buttons

/- ## Fast button cache (src/modules/fast_button_cache.py) -/

/-- Dataclass MessageData of fast_button_cache. -/
structure MessageData where
  message_id : ℕ
  chat_id : ℤ
  text : List Char
  buttons : List FastButtonInfo
deriving DecidableEq, Repr

/-- The mutable state of class FastButtonCache: the OrderedDict is an
ordered association list (front = oldest / least recently used,
back = most recently used), plus the hit/miss/update counters. -/
structure FastButtonCache where
  max_size : ℕ
  cache : List (ℕ × MessageData)
  hits : ℕ
  misses : ℕ
  updates : ℕ
deriving DecidableEq, Repr

/-- FastButtonCache.__init__. -/
def FastButtonCache.init (max_size : ℕ) : FastButtonCache where
  max_size := max_size
  cache := []
  hits := 0
  misses := 0
  updates := 0

/-- The key list of the cache in recency order (front = least recent). -/
def FastButtonCache.keys (c : FastButtonCache) : List ℕ :=
  c.cache.map Prod.fst

/-- FastButtonCache.update_message: replace-and-move-to-end when the id is
already cached, otherwise append and evict the front (least recently
used) entry when over capacity; always bumps the update counter. -/
def FastButtonCache.update_message (c : FastButtonCache) (message_id : ℕ)
    (chat_id : ℤ) (text : List Char) (buttons : List FastButtonInfo) : FastButtonCache :=
  let msg_data : MessageData := ⟨message_id, chat_id, text, buttons⟩
  let c1 :=
    if (alookup c.cache message_id).isSome then
      { c with cache := c.cache.filter (fun p => p.1 != message_id) ++ [(message_id, msg_data)] }
    else
      let c2 := c.cache ++ [(message_id, msg_data)]
      { c with cache := if c2.length > c.max_size then c2.drop 1 else c2 }
  { c1 with updates := c1.updates + 1 }

/-- FastButtonCache.get_message: on a hit, bump the hit counter and move
the entry to the back (mark it most recently used); on a miss, bump the
miss counter. -/
def FastButtonCache.get_message (c : FastButtonCache) (message_id : ℕ) :
    Option MessageData × FastButtonCache :=
  match alookup c.cache message_id with
  | some m =>
    (some m,
     { c with
       hits := c.hits + 1
       cache := c.cache.filter (fun p => p.1 != message_id) ++ [(message_id, m)] })
  | none => (none, { c with misses := c.misses + 1 })

/-- FastButtonCache.get_latest_message: none on an empty cache, otherwise
the last (most recently used) entry of the OrderedDict. -/
def FastButtonCache.get_latest_message (c : FastButtonCache) : Option MessageData :=
  match c.cache.getLast? with
  | none => none
  | some p => some p.2

/-- FastButtonCache.has_message. -/
def FastButtonCache.has_message (c : FastButtonCache) (message_id : ℕ) : Bool :=
  (alookup c.cache message_id).isSome

/-- One externally visible cache operation (an update or a get). -/
inductive CacheOp
  | update (message_id : ℕ) (chat_id : ℤ) (text : List Char) (buttons : List FastButtonInfo)
  | get (message_id : ℕ)
deriving DecidableEq, Repr

/-- Application of one operation to a FastButtonCache (the value returned
by a get is discarded; only the state matters here). -/
def FastButtonCache.applyOp (c : FastButtonCache) : CacheOp → FastButtonCache
  | .update message_id chat_id text buttons => c.update_message message_id chat_id text buttons
  | .get message_id => (c.get_message message_id).2

/-- Running a sequence of cache operations left to right. -/
def FastButtonCache.runOps (c : FastButtonCache) (ops : List CacheOp) : FastButtonCache :=
  ops.foldl FastButtonCache.applyOp c

/-- An update operation with fixed payload, used to state capacity
scenarios about update sequences. -/
def mkUpd (message_id : ℕ) : CacheOp := .update message_id 0 [] []

/- ## Original button cache (src/modules/button_cache.py) -/

/-- Dataclass ButtonInfo of button_cache (the original module), with the
first_seen/last_seen timestamps. -/
structure OldButtonInfo where
  text : List Char
  callback_data : List ℕ
  row : ℕ
  column : ℕ
  first_seen : ℚ
  last_seen : ℚ
deriving DecidableEq, Repr

/-- Dataclass MessageData of button_cache, with edit bookkeeping. -/
structure OldMessageData where
  message_id : ℕ
  chat_id : ℤ
  text : List Char
  buttons : List OldButtonInfo
  last_edit_time : ℚ
  edit_count : ℕ
deriving DecidableEq, Repr

/-- The mutable state of class ButtonCache: a Python 3.7 dict keeps
insertion order, so the model is an insertion-ordered association list. -/
structure ButtonCache where
  max_messages : ℕ
  messages_cache : List (ℕ × OldMessageData)
deriving DecidableEq, Repr

/-- ButtonCache.__init__. -/
def ButtonCache.init (max_messages : ℕ) : ButtonCache where
  max_messages := max_messages
  messages_cache := []

/-- Stable insertion of an entry into a list sorted by last_edit_time:
the new entry goes after all entries with a key not greater than its own,
so repeated insertion from the left is a stable sort (the model of
Python's stable `sorted(..., key=lambda x: x[1].last_edit_time)`). -/
def stableInsertByTime (x : ℕ × OldMessageData) :
    List (ℕ × OldMessageData) → List (ℕ × OldMessageData)
  | [] => [x]
  | y :: ys =>
    if x.2.last_edit_time < y.2.last_edit_time then x :: y :: ys
    else y :: stableInsertByTime x ys

/-- Stable sort by last_edit_time (insertion sort, stable). -/
def sortByEditTime (l : List (ℕ × OldMessageData)) : List (ℕ × OldMessageData) :=
  l.foldl (fun acc x => stableInsertByTime x acc) []

/-- ButtonCache._cleanup_old_messages: when over capacity, sort the
entries by last_edit_time and delete the oldest ones, keeping only the
most recent max_messages entries (deletion by key preserves the dict's
insertion order of the survivors). -/
def ButtonCache.cleanup_old_messages (c : ButtonCache) : ButtonCache :=
  if c.messages_cache.length ≤ c.max_messages then c
  else
    let sorted := sortByEditTime c.messages_cache
    let messages_to_remove := sorted.take (sorted.length - c.max_messages)
    { c with
      messages_cache :=
        c.messages_cache.filter
          (fun p => !(messages_to_remove.any (fun q => q.1 == p.1))) }

/-- ButtonCache.update_message at clock time `now`: in-place field update
(position in the dict unchanged, chat_id untouched, edit_count bumped)
when the id exists, otherwise append a fresh entry and clean up if the
cache is over capacity. -/
def ButtonCache.update_message (c : ButtonCache) (message_id : ℕ) (chat_id : ℤ)
    (text : List Char) (buttons : List OldButtonInfo) (now : ℚ) : ButtonCache :=
  match alookup c.messages_cache message_id with
  | some old =>
    { c with
      messages_cache := c.messages_cache.map (fun p =>
        if p.1 = message_id then
          (message_id,
           { old with
             text := text
             buttons := buttons
             last_edit_time := now
             edit_count := old.edit_count + 1 })
        else p) }
  | none =>
    let msg_data : OldMessageData :=
      ⟨message_id, chat_id, text, buttons, now, 0⟩
    let c1 := { c with messages_cache := c.messages_cache ++ [(message_id, msg_data)] }
    if c1.messages_cache.length > c1.max_messages then c1.cleanup_old_messages else c1

/-- ButtonCache.get_message (a pure dict lookup: no recency side effect). -/
def ButtonCache.get_message (c : ButtonCache) (message_id : ℕ) : Option OldMessageData :=
  alookup c.messages_cache message_id

/-- ButtonCache.get_latest_message: none on an empty cache, otherwise the
entry with maximal last_edit_time; Python's max keeps the first of equal
candidates, so only a strictly later time replaces the running best. -/
def ButtonCache.get_latest_message (c : ButtonCache) : Option OldMessageData :=
  match c.messages_cache with
  | [] => none
  | p :: rest =>
    some (rest.foldl
      (fun best q => if q.2.last_edit_time > best.last_edit_time then q.2 else best)
      p.2)

/- ## Original stabilization detector
(src/modules/stabilization_detector.py) -/

/-- Dataclass EditHistory: the recorded edit timestamps (bounded to the
last 20 by add_edit) and the most recent one. -/
structure EditHistory where
  message_id : ℕ
  edit_times : List ℚ
  last_edit : Option ℚ
deriving DecidableEq, Repr

/-- EditHistory.add_edit: append the timestamp, remember it as last_edit,
and keep only the most recent 20 entries. -/
def EditHistory.add_edit (h : EditHistory) (timestamp : ℚ) : EditHistory :=
  let et := h.edit_times ++ [timestamp]
  { h with
    edit_times := if et.length > 20 then et.drop (et.length - 20) else et
    last_edit := some timestamp }

/-- EditHistory.get_edit_frequency at clock time `now`: the number of
recorded edits within the trailing window, divided by the window. -/
def EditHistory.get_edit_frequency (h : EditHistory) (time_window : ℚ) (now : ℚ) : ℚ :=
  let cutoff := now - time_window
  ((h.edit_times.filter (fun t => decide (t ≥ cutoff))).length : ℚ) / time_window

/-- EditHistory.get_average_interval: mean of consecutive inter-edit
intervals, 0 when fewer than two samples exist. -/
def EditHistory.get_average_interval (h : EditHistory) : ℚ :=
  if h.edit_times.length < 2 then 0
  else meanInterval h.edit_times

/-- The mutable state of class StabilizationDetector. -/
structure StabilizationDetector where
  threshold : ℚ
  strategy : String
  edit_histories : List (ℕ × EditHistory)
deriving DecidableEq, Repr

/-- StabilizationDetector.record_edit at clock time `now`. -/
def StabilizationDetector.record_edit (d : StabilizationDetector)
    (message_id : ℕ) (now : ℚ) : StabilizationDetector :=
  let h := (alookup d.edit_histories message_id).getD ⟨message_id, [], none⟩
  { d with
    edit_histories :=
      (message_id, h.add_edit now) :: d.edit_histories.filter (fun p => p.1 != message_id) }

/-- StabilizationDetector._predict_stabilization at clock time `now`:
below the threshold never stable; a near-zero recent edit frequency
(fewer than 0.5 edits/second over the last second) counts as stable; so
does a current gap of more than twice the average inter-edit interval. -/
def StabilizationDetector.predict_stabilization (d : StabilizationDetector)
    (history : EditHistory) (now : ℚ) : Bool :=
  match history.last_edit with
  | none => false
  | some last_edit =>
    let time_since_last := now - last_edit
    if time_since_last < d.threshold then false
    else
      let recent_frequency := history.get_edit_frequency 1 now
      if recent_frequency < 1 / 2 then true
      else
        let avg_interval := history.get_average_interval
        if avg_interval > 0 ∧ time_since_last > avg_interval * 2 then true
        else false

/-- StabilizationDetector.is_stabilized at clock time `now`. -/
def StabilizationDetector.is_stabilized (d : StabilizationDetector)
    (message_id : ℕ) (now : ℚ) : Bool :=
  match alookup d.edit_histories message_id with
  | none => false
  | some history =>
    match history.last_edit with
    | none => false
    | some last_edit =>
      let time_since_last_edit := now - last_edit
      if d.strategy = "wait" then
        decide (time_since_last_edit ≥ d.threshold)
      else if d.strategy = "predict" then
        d.predict_stabilization history now
      else if d.strategy = "aggressive" then
        decide (time_since_last_edit ≥ d.threshold * (1 / 2))
      else false

/-- StabilizationDetector.get_time_since_last_edit at clock time `now`. -/
def StabilizationDetector.get_time_since_last_edit (d : StabilizationDetector)
    (message_id : ℕ) (now : ℚ) : Option ℚ :=
  match alookup d.edit_histories message_id with
  | none => none
  | some history =>
    match history.last_edit with
    | none => none
    | some last_edit => some (now - last_edit)

/- ## Click executor (src/modules/click_executor.py) -/

/-- The classified errors a remote press can raise (the telethon
exception types caught by ClickExecutor.click_button). -/
inductive ClickError
  | messageNotModified
  | queryIdInvalid
  | floodWait (seconds : ℚ)
  | timeoutError
  | otherError
deriving DecidableEq, Repr

/-- The outcome of one remote press attempt: success or a raised error. -/
inductive AttemptOutcome
  | ok
  | err (e : ClickError)
deriving DecidableEq, Repr

/-- Abstraction of the ClickResult message strings produced by
click_button, one constructor per return site. -/
inductive ClickMessage
  | clicked
  | modifiedMaxRetries
  | queryInvalidMax
  | floodWaitTooLong (seconds : ℚ)
  | timeoutMax
  | unexpectedMax
  | maxRetriesExceeded
deriving DecidableEq, Repr

/-- Class ClickResult, success flag plus the message. -/
structure ClickResult where
  success : Bool
  message : ClickMessage
deriving DecidableEq, Repr

/-- The executor's running totals (total_clicks / successful_clicks /
failed_clicks fields of ClickExecutor). -/
structure ClickStats where
  total_clicks : ℕ
  successful_clicks : ℕ
  failed_clicks : ℕ
deriving DecidableEq, Repr

/-- The observable effect of one click_button call: its ClickResult, the
number of remote attempts actually performed, and the sleeps executed
between attempts in order. -/
structure ClickRun where
  result : ClickResult
  attempts_used : ℕ
  sleeps : List ℚ
deriving DecidableEq, Repr

/-- The retry loop of ClickExecutor.click_button.  `outcomes k` is what
the remote call raises or returns on the k-th performed attempt;
`remaining` counts the iterations left in `range(max_retries)` and
`attempt` is the current loop index (so `remaining + attempt =
max_retries` at every call from click_button).  Each iteration consumes
one attempt; a flood wait of at most 60 seconds sleeps for the mandated
duration and continues with the next loop iteration, a longer one
returns immediately; falling out of the loop yields the
"Max retries exceeded" failure. -/
def clickLoop (max_retries : ℕ) (retry_delay : ℚ) (outcomes : ℕ → AttemptOutcome) :
    (remaining : ℕ) → (attempt : ℕ) → ClickRun
  | 0, _ => ⟨⟨false, .maxRetriesExceeded⟩, 0, []⟩
  | r + 1, attempt =>
    match outcomes attempt with
    | .ok => ⟨⟨true, .clicked⟩, 1, []⟩
    | .err .messageNotModified =>
      if attempt < max_retries - 1 then
        let rest := clickLoop max_retries retry_delay outcomes r (attempt + 1)
        ⟨rest.result, rest.attempts_used + 1, retry_delay :: rest.sleeps⟩
      else ⟨⟨false, .modifiedMaxRetries⟩, 1, []⟩
    | .err .queryIdInvalid =>
      if attempt < max_retries - 1 then
        let rest := clickLoop max_retries retry_delay outcomes r (attempt + 1)
        ⟨rest.result, rest.attempts_used + 1, retry_delay * 2 :: rest.sleeps⟩
      else ⟨⟨false, .queryInvalidMax⟩, 1, []⟩
    | .err (.floodWait wait_time) =>
      if wait_time > 60 then ⟨⟨false, .floodWaitTooLong wait_time⟩, 1, []⟩
      else
        let rest := clickLoop max_retries retry_delay outcomes r (attempt + 1)
        ⟨rest.result, rest.attempts_used + 1, wait_time :: rest.sleeps⟩
    | .err .timeoutError =>
      if attempt < max_retries - 1 then
        let rest := clickLoop max_retries retry_delay outcomes r (attempt + 1)
        ⟨rest.result, rest.attempts_used + 1, retry_delay :: rest.sleeps⟩
      else ⟨⟨false, .timeoutMax⟩, 1, []⟩
    | .err .otherError =>
      if attempt < max_retries - 1 then
        let rest := clickLoop max_retries retry_delay outcomes r (attempt + 1)
        ⟨rest.result, rest.attempts_used + 1, retry_delay :: rest.sleeps⟩
      else ⟨⟨false, .unexpectedMax⟩, 1, []⟩

/-- ClickExecutor.click_button: bumps total_clicks, runs the retry loop
from attempt 0, and bumps successful_clicks or failed_clicks according
to the outcome (every non-success return site of the source increments
failed_clicks, including the fall-through after the loop). -/
def click_button (max_retries : ℕ) (retry_delay : ℚ) (outcomes : ℕ → AttemptOutcome)
    (stats : ClickStats) : ClickRun × ClickStats :=
  let stats1 := { stats with total_clicks := stats.total_clicks + 1 }
  let run := clickLoop max_retries retry_delay outcomes max_retries 0
  if run.result.success then
    (run, { stats1 with successful_clicks := stats1.successful_clicks + 1 })
  else
    (run, { stats1 with failed_clicks := stats1.failed_clicks + 1 })

/-- ClickExecutor.get_statistics: the counter entries of the returned
dict (total_clicks, successful_clicks, failed_clicks; the success_rate
entry is derived from these). -/
def get_statistics (s : ClickStats) : ℕ × ℕ × ℕ :=
  (s.total_clicks, s.successful_clicks, s.failed_clicks)

/- ## Fast orchestrator trigger handling (src/bot_automation_fast.py) -/

/-- The orchestrator state touched by BotAutomationFast._handle_trigger:
the workflow state machine, the current message id, the last seen button
labels and the stabilization detector. -/
structure BotAutomationFast where
  state_machine : StateMachine
  current_message_id : Option ℕ
  last_button_texts : Option (List (List Char))
  stabilization_detector : FastStabilizationDetector
deriving DecidableEq, Repr

/-- BotAutomationFast._handle_trigger at clock time `now`: a trigger
arriving while the state machine is not IDLE is ignored outright (only a
warning is logged); from IDLE it starts a run (start_automation), points
the orchestrator at the trigger message, clears the last seen labels and
records an edit for stabilization tracking (the scheduled step-1
coroutine runs outside this handler). -/
def BotAutomationFast.handle_trigger (b : BotAutomationFast) (message_id : ℕ)
    (now : ℚ) : BotAutomationFast :=
  if !b.state_machine.is_idle then b
  else
    { b with
      state_machine := b.state_machine.start_automation message_id now
      current_message_id := some message_id
      last_button_texts := none
      stabilization_detector := b.stabilization_detector.record_edit message_id now }

/- ## Sample states used by the concrete witnesses -/

/-- A bot-automation state whose state machine sits in STEP_1. -/
def sampleBot : BotAutomationFast where
  state_machine := { StateMachine.init 5 5 5 with current_state := .STEP_1 }
  current_message_id := some 3
  last_button_texts := none
  stabilization_detector := FastStabilizationDetector.init (3 / 20) "wait" 20

/-- A fast cache holding one entry with key 3, used to witness the
get-refreshes-recency part of the capacity claim. -/
def sampleCache : FastButtonCache :=
  (FastButtonCache.init 2).update_message 3 0 [] []

/-- An attempt oracle that always raises a 100-second flood wait. -/
def floodBigOutcomes : ℕ → AttemptOutcome := fun _ => .err (.floodWait 100)

/-- An attempt oracle that always raises a 1-second flood wait. -/
def floodSmallOutcomes : ℕ → AttemptOutcome := fun _ => .err (.floodWait 1)

/-- The attempt oracle of the C8 scenario: two stale-message failures,
then success on the third attempt. -/
def staleThenOkOutcomes : ℕ → AttemptOutcome :=
  fun k => if k < 2 then .err .messageNotModified else .ok

/-- The per-message stored edit-time history of a fast detector. -/
def histOf (d : FastStabilizationDetector) (message_id : ℕ) : List ℚ :=
  (alookup d.edit_times message_id).getD []

/-- The last `N` elements of a list (everything when the list is short). -/
def lastN (N : ℕ) (l : List ℕ) : List ℕ := l.drop (l.length - N)

/-- The structural invariant of the fast cache: distinct keys, and no
more entries than the configured capacity. -/
def CacheInv (c : FastButtonCache) : Prop :=
  c.keys.Nodup ∧ c.cache.length ≤ c.max_size

/- ## Helper lemmas -/

theorem alookup_eq_none_iff {α : Type} (l : List (ℕ × α)) (k : ℕ) :
    alookup l k = none ↔ k ∉ l.map Prod.fst := by
  induction l with
  | nil => simp [alookup]
  | cons p l ih =>
    by_cases h : p.1 = k
    · simp [alookup, h]
    · simp [alookup, h, ih, Ne.symm h]

theorem alookup_isSome_iff {α : Type} (l : List (ℕ × α)) (k : ℕ) :
    (alookup l k).isSome = true ↔ k ∈ l.map Prod.fst := by
  rw [← not_iff_not, ← alookup_eq_none_iff _ k]
  cases alookup l k <;> simp

theorem alookup_cons_self {α : Type} (l : List (ℕ × α)) (k : ℕ) (v : α) :
    alookup ((k, v) :: l) k = some v := by
  simp [alookup]

theorem map_fst_filter_ne {α : Type} (l : List (ℕ × α)) (k : ℕ) :
    (l.filter (fun p => p.1 != k)).map Prod.fst
      = (l.map Prod.fst).filter (fun x => x != k) := by
  induction l with
  | nil => rfl
  | cons p l ih =>
    by_cases h : p.1 = k
    · simp [List.filter_cons, h, ih]
    · simp [List.filter_cons, bne_iff_ne, h, ih]

theorem alookup_filter_ne_self {α : Type} (l : List (ℕ × α)) (k : ℕ) :
    alookup (l.filter (fun p => p.1 != k)) k = none := by
  rw [alookup_eq_none_iff, map_fst_filter_ne]
  intro hmem
  have := List.of_mem_filter hmem
  simp at this

/-- transition_to installs the requested state unconditionally: the
current state after any transition_to call is the requested state. -/
theorem transition_to_current_state (sm : StateMachine) (s : AutomationState)
    (reason : String) (now : ℚ) (ctx : TransitionContext) :
    (sm.transition_to s reason now ctx).current_state = s := by
  cases ctx <;>
    simp only [StateMachine.transition_to, StateMachine.applyContext] <;>
    split_ifs <;> rfl

/-- transition_to never touches the total_runs counter. -/
theorem transition_to_total_runs (sm : StateMachine) (s : AutomationState)
    (reason : String) (now : ℚ) (ctx : TransitionContext) :
    (sm.transition_to s reason now ctx).total_runs = sm.total_runs := by
  cases ctx <;>
    simp only [StateMachine.transition_to, StateMachine.applyContext] <;>
    split_ifs <;> rfl

/- ## Claim C1 -/

/-- Claim C1 (counterexample): the claim asserts that requesting a
transition outside the permitted set — such as complete_step_2 while the
machine is IDLE — fails loudly and does not silently change the current
state.  On the code it does the opposite: from a freshly initialized
(IDLE) state machine, complete_step_2 silently moves the current state
to STEP_3, which is not IDLE, and no error path exists. -/
theorem C1_counterexample :
    ((StateMachine.init 5 5 5).complete_step_2 42 0).current_state = AutomationState.STEP_3
    ∧ ((StateMachine.init 5 5 5).complete_step_2 42 0).current_state ≠ AutomationState.IDLE := by
  exact ⟨rfl, by decide⟩

/-- Claim C1 (amended): StateMachine.transition_to performs every
requested transition unconditionally — there is no permitted-set check
anywhere, so invoking complete_step_2 from any state (including IDLE)
silently installs STEP_3 as the current state instead of failing. -/
theorem C1_amended :
    (∀ (sm : StateMachine) (id : ℕ) (now : ℚ),
        (sm.complete_step_2 id now).current_state = AutomationState.STEP_3)
    ∧ (∀ (sm : StateMachine) (s : AutomationState) (reason : String) (now : ℚ)
        (ctx : TransitionContext),
        (sm.transition_to s reason now ctx).current_state = s) :=
  ⟨fun sm id now => transition_to_current_state sm .STEP_3 "Step 2 completed" now
      (.step2MessageId id),
   fun sm s reason now ctx => transition_to_current_state sm s reason now ctx⟩

/- ## Claim C4 -/

/-- Claim C4 (confirmed): a trigger arriving while the workflow state
machine is in any state other than IDLE is rejected outright — the
orchestrator state is returned unchanged, so no transition occurs, no
run is started, total_runs is not incremented and no context field
changes; only from IDLE does the trigger start a run (STEP_1 with
total_runs incremented), so at most one non-idle run is ever in
flight. -/
theorem C4_trigger_rejected_when_busy :
    (∀ (b : BotAutomationFast) (message_id : ℕ) (now : ℚ),
        b.state_machine.current_state ≠ AutomationState.IDLE →
        b.handle_trigger message_id now = b)
    ∧ (∀ (b : BotAutomationFast) (message_id : ℕ) (now : ℚ),
        b.state_machine.current_state = AutomationState.IDLE →
        (b.handle_trigger message_id now).state_machine.current_state = AutomationState.STEP_1
        ∧ (b.handle_trigger message_id now).state_machine.total_runs
            = b.state_machine.total_runs + 1) := by
  constructor
  · intro b message_id now h
    simp [BotAutomationFast.handle_trigger, StateMachine.is_idle, h]
  · intro b message_id now h
    simp only [BotAutomationFast.handle_trigger, StateMachine.is_idle, h]
    simp [StateMachine.start_automation, transition_to_current_state,
      transition_to_total_runs]

/-- Claim C4 (witness): the rejection theorem applied to a concrete
orchestrator state sitting in STEP_1. -/
theorem C4_witness :
    sampleBot.state_machine.current_state ≠ AutomationState.IDLE
    ∧ sampleBot.handle_trigger 7 1 = sampleBot :=
  ⟨by decide, C4_trigger_rejected_when_busy.1 sampleBot 7 1 (by decide)⟩

/- ## Claim C6 -/

/-- The scan loop of find_button_by_keywords is a first-match search over
the control list: it returns the first control one of whose (already
lowercased) keywords matches. -/
theorem findButtonLoop_eq_find? (kws : List (List Char)) :
    ∀ bl : List FastButtonInfo,
      findButtonLoop kws bl = bl.find? (fun b => kws.any (fun k => b.matches_keyword k)) := by
  intro bl
  induction bl with
  | nil => rfl
  | cons b rest ih =>
    rw [List.find?_cons]
    cases h : kws.find? (fun k => b.matches_keyword k) with
    | none =>
      have hany : kws.any (fun k => b.matches_keyword k) = false := by
        rw [List.any_eq_false]
        intro k hk
        have := List.find?_eq_none.mp h k hk
        simpa using this
      simp [findButtonLoop, h, hany, ih]
    | some k =>
      have hany : kws.any (fun k => b.matches_keyword k) = true := by
        rw [List.any_eq_true]
        exact ⟨k, List.mem_of_find?_eq_some h, List.find?_some h⟩
      simp [findButtonLoop, h, hany]

/-- Claim C6 (confirmed): find_button_by_keywords is exactly the
first-match scan — it returns the first control in list order whose
lowercased label contains some lowercased supplied keyword as a
contiguous substring (controls scanned in list order, keywords per
control in supplied order, so the first control with any matching
keyword wins); it returns none when no keyword matches any control; and
it is a pure function, hence deterministic on identical inputs. -/
theorem C6_by_keywords_first_match :
    (∀ (buttons : List FastButtonInfo) (keywords : List (List Char)),
        find_button_by_keywords buttons keywords
          = buttons.find? (fun b =>
              (keywords.map lowerStr).any (fun k => b.matches_keyword k)))
    ∧ (∀ (buttons : List FastButtonInfo) (keywords : List (List Char)),
        (∀ b ∈ buttons, ∀ kw ∈ keywords,
            substrMatch (lowerStr kw) b.text_lower = false) →
        find_button_by_keywords buttons keywords = none)
    ∧ (∀ (buttons : List FastButtonInfo) (keywords : List (List Char)),
        find_button_by_keywords buttons keywords
          = find_button_by_keywords buttons keywords) := by
  have key : ∀ (buttons : List FastButtonInfo) (keywords : List (List Char)),
      find_button_by_keywords buttons keywords
        = buttons.find? (fun b =>
            (keywords.map lowerStr).any (fun k => b.matches_keyword k)) := by
    intro buttons keywords
    unfold find_button_by_keywords
    by_cases hk : keywords.isEmpty
    · have : keywords = [] := List.isEmpty_iff.mp hk
      subst this
      simp only [List.isEmpty_nil, Bool.true_or, if_true, List.map_nil, List.any_nil]
      rw [eq_comm, List.find?_eq_none]
      intro x _
      simp
    · by_cases hb : buttons.isEmpty
      · have : buttons = [] := List.isEmpty_iff.mp hb
        subst this
        simp [hk]
      · simp only [hk, hb, Bool.or_self, Bool.false_or, if_false]
        exact findButtonLoop_eq_find? _ buttons
  refine ⟨key, ?_, fun _ _ => rfl⟩
  intro buttons keywords hnone
  rw [key, List.find?_eq_none]
  intro b hb
  simp only [List.any_eq_true, List.mem_map, Bool.not_eq_true]
  rintro ⟨k, ⟨kw, hkw, rfl⟩, hmatch⟩
  have hfalse := hnone b hb kw hkw
  simp only [FastButtonInfo.matches_keyword] at hmatch
  simp [hfalse] at hmatch

/- ## Claim C2 -/

theorem update_message_cache_present (c : FastButtonCache) (id : ℕ) (chat : ℤ)
    (text : List Char) (btns : List FastButtonInfo)
    (h : (alookup c.cache id).isSome = true) :
    (c.update_message id chat text btns).cache
      = c.cache.filter (fun p => p.1 != id)
          ++ [(id, (⟨id, chat, text, btns⟩ : MessageData))] := by
  simp [FastButtonCache.update_message, h]

theorem update_message_cache_fresh (c : FastButtonCache) (id : ℕ) (chat : ℤ)
    (text : List Char) (btns : List FastButtonInfo)
    (h : alookup c.cache id = none) :
    (c.update_message id chat text btns).cache
      = (if c.cache.length + 1 > c.max_size
         then (c.cache ++ [(id, (⟨id, chat, text, btns⟩ : MessageData))]).drop 1
         else c.cache ++ [(id, (⟨id, chat, text, btns⟩ : MessageData))]) := by
  simp [FastButtonCache.update_message, h, List.drop_one, gt_iff_lt]

theorem nodup_append_singleton {x : ℕ} {l : List ℕ} (h : l.Nodup) (hx : x ∉ l) :
    (l ++ [x]).Nodup := by
  rw [List.nodup_append]
  exact ⟨h, List.nodup_singleton x,
    fun a ha hax => hx ((List.mem_singleton.mp hax) ▸ ha)⟩

theorem get_message_cache_found (c : FastButtonCache) (id : ℕ) (m : MessageData)
    (h : alookup c.cache id = some m) :
    (c.get_message id).2.cache = c.cache.filter (fun p => p.1 != id) ++ [(id, m)] := by
  simp [FastButtonCache.get_message, h]

theorem get_message_cache_missing (c : FastButtonCache) (id : ℕ)
    (h : alookup c.cache id = none) :
    (c.get_message id).2.cache = c.cache := by
  simp [FastButtonCache.get_message, h]

theorem max_size_update_message (c : FastButtonCache) (id : ℕ) (chat : ℤ)
    (text : List Char) (btns : List FastButtonInfo) :
    (c.update_message id chat text btns).max_size = c.max_size := by
  simp only [FastButtonCache.update_message]
  split_ifs <;> rfl

theorem max_size_applyOp (c : FastButtonCache) (op : CacheOp) :
    (c.applyOp op).max_size = c.max_size := by
  cases op with
  | update id chat text btns => exact max_size_update_message c id chat text btns
  | get id =>
    simp only [FastButtonCache.applyOp, FastButtonCache.get_message]
    cases h : alookup c.cache id <;> simp

theorem max_size_runOps (ops : List CacheOp) :
    ∀ c : FastButtonCache, (c.runOps ops).max_size = c.max_size := by
  induction ops with
  | nil => intro c; rfl
  | cons op ops ih =>
    intro c
    calc ((c.applyOp op).runOps ops).max_size = (c.applyOp op).max_size := ih _
      _ = c.max_size := max_size_applyOp c op

theorem length_filter_ne_lt {α : Type} (l : List (ℕ × α)) (k : ℕ)
    (h : k ∈ l.map Prod.fst) :
    (l.filter (fun p => p.1 != k)).length < l.length := by
  rw [List.length_filter_lt_length_iff_exists]
  obtain ⟨p, hp, hfst⟩ := List.mem_map.mp h
  exact ⟨p, hp, by simp [hfst]⟩

theorem nodup_filter_append {α : Type} (l : List (ℕ × α)) (k : ℕ) (v : α)
    (hnd : (l.map Prod.fst).Nodup) :
    ((l.filter (fun p => p.1 != k) ++ [(k, v)]).map Prod.fst).Nodup := by
  rw [List.map_append, map_fst_filter_ne]
  show ((l.map Prod.fst).filter (fun x => x != k) ++ [k]).Nodup
  refine nodup_append_singleton (hnd.filter _) ?_
  intro hmem
  have hne := List.of_mem_filter hmem
  simp at hne

theorem inv_update_message (c : FastButtonCache) (id : ℕ) (chat : ℤ)
    (text : List Char) (btns : List FastButtonInfo) (h : CacheInv c) :
    CacheInv (c.update_message id chat text btns) := by
  obtain ⟨hnd, hlen⟩ := h
  by_cases hk : (alookup c.cache id).isSome = true
  · have hc := update_message_cache_present c id chat text btns hk
    have hmem : id ∈ c.cache.map Prod.fst := (alookup_isSome_iff _ _).mp hk
    constructor
    · rw [FastButtonCache.keys, hc]
      exact nodup_filter_append _ _ _ hnd
    · rw [hc, max_size_update_message, List.length_append]
      have := length_filter_ne_lt c.cache id hmem
      simp only [List.length_cons, List.length_nil]
      omega
  · have hnone : alookup c.cache id = none := by
      cases halk : alookup c.cache id
      · rfl
      · rw [halk] at hk; simp at hk
    have hnotmem : id ∉ c.cache.map Prod.fst := (alookup_eq_none_iff _ _).mp hnone
    have hc := update_message_cache_fresh c id chat text btns hnone
    have hnd2 : ((c.cache ++ [(id, (⟨id, chat, text, btns⟩ : MessageData))]).map Prod.fst).Nodup := by
      rw [List.map_append]
      exact nodup_append_singleton hnd hnotmem
    rw [CacheInv, FastButtonCache.keys, hc, max_size_update_message]
    split_ifs with hover
    · constructor
      · rw [List.map_drop]
        exact hnd2.sublist (List.drop_sublist 1 _)
      · simp only [List.length_drop, List.length_append, List.length_cons, List.length_nil]
        omega
    · constructor
      · exact hnd2
      · simp only [List.length_append, List.length_cons, List.length_nil]
        omega

theorem inv_applyOp (c : FastButtonCache) (op : CacheOp) (h : CacheInv c) :
    CacheInv (c.applyOp op) := by
  cases op with
  | update id chat text btns => exact inv_update_message c id chat text btns h
  | get id =>
    obtain ⟨hnd, hlen⟩ := h
    show CacheInv (c.get_message id).2
    cases halk : alookup c.cache id with
    | none =>
      constructor
      · rw [FastButtonCache.keys, get_message_cache_missing c id halk]
        exact hnd
      · rw [get_message_cache_missing c id halk]
        simpa [FastButtonCache.get_message, halk] using hlen
    | some m =>
      have hmem : id ∈ c.cache.map Prod.fst :=
        (alookup_isSome_iff _ _).mp (by rw [halk]; rfl)
      constructor
      · rw [FastButtonCache.keys, get_message_cache_found c id m halk]
        exact nodup_filter_append _ _ _ hnd
      · rw [get_message_cache_found c id m halk]
        have hms : (c.get_message id).2.max_size = c.max_size := by
          simp [FastButtonCache.get_message, halk]
        rw [hms, List.length_append]
        have := length_filter_ne_lt c.cache id hmem
        simp only [List.length_cons, List.length_nil]
        omega

theorem inv_runOps (ops : List CacheOp) :
    ∀ c : FastButtonCache, CacheInv c → CacheInv (c.runOps ops) := by
  induction ops with
  | nil => intro c h; exact h
  | cons op ops ih => intro c h; exact ih _ (inv_applyOp c op h)

/-- Running a sequence of updates with pairwise-distinct fresh ids: the
final key list is the last max_size elements of old keys followed by the
new ids, in order — eviction always drops from the least-recent end. -/
theorem keys_runUpdates :
    ∀ (ids : List ℕ) (c : FastButtonCache),
      c.keys.Nodup → c.cache.length ≤ c.max_size → ids.Nodup →
      (∀ i ∈ ids, i ∉ c.keys) →
      (c.runOps (ids.map mkUpd)).keys = lastN c.max_size (c.keys ++ ids) := by
  intro ids
  induction ids with
  | nil =>
    intro c _ hlen _ _
    simp only [List.map_nil, FastButtonCache.runOps, List.foldl_nil, List.append_nil, lastN]
    rw [Nat.sub_eq_zero_of_le, List.drop_zero]
    calc c.keys.length = c.cache.length := by rw [FastButtonCache.keys, List.length_map]
      _ ≤ c.max_size := hlen
  | cons i ids ih =>
    intro c hnd hlen hnodup hf
    have hfresh : alookup c.cache i = none := by
      rw [alookup_eq_none_iff]
      exact hf i (by simp)
    have hstep : c.runOps ((i :: ids).map mkUpd)
        = (c.update_message i 0 [] []).runOps (ids.map mkUpd) := rfl
    have hnotmem : i ∉ c.keys := hf i (by simp)
    have hnd2 : (c.keys ++ [i]).Nodup := nodup_append_singleton hnd hnotmem
    have hmapkeys : (c.cache ++ [(i, (⟨i, 0, [], []⟩ : MessageData))]).map Prod.fst
        = c.keys ++ [i] := by
      rw [List.map_append, FastButtonCache.keys]
      rfl
    have hids_nodup : ids.Nodup := (List.nodup_cons.mp hnodup).2
    have hi_not_ids : i ∉ ids := (List.nodup_cons.mp hnodup).1
    have hms : (c.update_message i 0 [] []).max_size = c.max_size :=
      max_size_update_message c i 0 [] []
    by_cases hover : c.cache.length + 1 > c.max_size
    · -- at capacity: the front (least recently used) entry is dropped
      have hlenN : c.cache.length = c.max_size := by omega
      have hc : (c.update_message i 0 [] []).cache
          = (c.cache ++ [(i, (⟨i, 0, [], []⟩ : MessageData))]).drop 1 := by
        rw [update_message_cache_fresh c i 0 [] [] hfresh, if_pos hover]
      have hkeys : (c.update_message i 0 [] []).keys = (c.keys ++ [i]).drop 1 := by
        rw [FastButtonCache.keys, hc, List.map_drop, hmapkeys]
      have hnd3 : (c.update_message i 0 [] []).keys.Nodup := by
        rw [hkeys]
        exact hnd2.sublist (List.drop_sublist 1 _)
      have hlen3 : (c.update_message i 0 [] []).cache.length
          ≤ (c.update_message i 0 [] []).max_size := by
        rw [hc, hms]
        simp only [List.length_drop, List.length_append, List.length_cons, List.length_nil]
        omega
      have hf3 : ∀ x ∈ ids, x ∉ (c.update_message i 0 [] []).keys := by
        intro x hx hmem
        rw [hkeys] at hmem
        have hmem2 : x ∈ c.keys ++ [i] := List.mem_of_mem_drop hmem
        rcases List.mem_append.mp hmem2 with h1 | h1
        · exact hf x (by simp [hx]) h1
        · simp only [List.mem_singleton] at h1
          exact hi_not_ids (h1 ▸ hx)
      have hresult := ih (c.update_message i 0 [] []) hnd3 hlen3 hids_nodup hf3
      rw [hstep, hresult, hkeys, hms]
      -- remaining: lastN N ((K ++ [i]).drop 1 ++ ids) = lastN N (K ++ i :: ids)
      have hKlen : c.keys.length = c.max_size := by
        rw [FastButtonCache.keys, List.length_map]
        exact hlenN
      have h10 : 1 - (c.keys ++ [i]).length = 0 := by
        simp only [List.length_append, List.length_cons, List.length_nil]
        omega
      have hsplit : ((c.keys ++ [i]) ++ ids).drop 1 = (c.keys ++ [i]).drop 1 ++ ids := by
        rw [List.drop_append_eq_append_drop, h10, List.drop_zero]
      have hassoc : (c.keys ++ [i]) ++ ids = c.keys ++ i :: ids := by
        rw [List.append_assoc, List.singleton_append]
      rw [← hsplit, hassoc, lastN, lastN, List.drop_drop]
      congr 1
      simp only [List.length_drop, List.length_append, List.length_cons]
      omega
    · -- below capacity: simple append
      have hc : (c.update_message i 0 [] []).cache
          = c.cache ++ [(i, (⟨i, 0, [], []⟩ : MessageData))] := by
        rw [update_message_cache_fresh c i 0 [] [] hfresh, if_neg hover]
      have hkeys : (c.update_message i 0 [] []).keys = c.keys ++ [i] := by
        rw [FastButtonCache.keys, hc, hmapkeys]
      have hlen3 : (c.update_message i 0 [] []).cache.length
          ≤ (c.update_message i 0 [] []).max_size := by
        rw [hc, hms]
        simp only [List.length_append, List.length_cons, List.length_nil]
        omega
      have hf3 : ∀ x ∈ ids, x ∉ (c.update_message i 0 [] []).keys := by
        intro x hx hmem
        rw [hkeys] at hmem
        rcases List.mem_append.mp hmem with h1 | h1
        · exact hf x (by simp [hx]) h1
        · simp only [List.mem_singleton] at h1
          exact hi_not_ids (h1 ▸ hx)
      have hresult := ih (c.update_message i 0 [] []) (hkeys ▸ hnd2) hlen3 hids_nodup hf3
      rw [hstep, hresult, hkeys, hms]
      rw [List.append_assoc, List.singleton_append]

/-- Claim C2 (confirmed): on the fast cache, (1) after any sequence of
update and get operations on a cache of capacity N the number of stored
entries never exceeds N; (2) after updates for N+1 pairwise-distinct
message ids the first-updated (least-recently-updated) id is absent and
every other id is present — exactly one entry is missing; and (3) a get
refreshes recency: after a get of a present id that id moves to the
most-recently-used end of the eviction order. -/
theorem C2_capacity_and_eviction :
    (∀ (N : ℕ) (ops : List CacheOp),
        ((FastButtonCache.init N).runOps ops).cache.length ≤ N)
    ∧ (∀ (N a : ℕ) (t : List ℕ),
        (a :: t).Nodup → (a :: t).length = N + 1 →
        ((FastButtonCache.init N).runOps ((a :: t).map mkUpd)).has_message a = false
        ∧ ∀ b ∈ t, ((FastButtonCache.init N).runOps ((a :: t).map mkUpd)).has_message b = true)
    ∧ (∀ (c : FastButtonCache) (id : ℕ),
        c.has_message id = true →
        (c.get_message id).2.keys = c.keys.filter (fun x => x != id) ++ [id]) := by
  refine ⟨?_, ?_, ?_⟩
  · intro N ops
    have hinv : CacheInv (FastButtonCache.init N) := by
      constructor
      · simp [FastButtonCache.keys, FastButtonCache.init]
      · simp [FastButtonCache.init]
    have h := inv_runOps ops (FastButtonCache.init N) hinv
    have hms := max_size_runOps ops (FastButtonCache.init N)
    calc ((FastButtonCache.init N).runOps ops).cache.length
        ≤ ((FastButtonCache.init N).runOps ops).max_size := h.2
      _ = N := hms
  · intro N a t hnodup hlen
    have hkeys := keys_runUpdates (a :: t) (FastButtonCache.init N)
      (by simp [FastButtonCache.keys, FastButtonCache.init])
      (by simp [FastButtonCache.init]) hnodup
      (by intro i _; simp [FastButtonCache.keys, FastButtonCache.init])
    have hinitkeys : (FastButtonCache.init N).keys = ([] : List ℕ) := rfl
    rw [hinitkeys, List.nil_append] at hkeys
    have hlast : lastN (FastButtonCache.init N).max_size (a :: t) = t := by
      have hmsN : (FastButtonCache.init N).max_size = N := rfl
      rw [hmsN, lastN]
      have : (a :: t).length - N = 1 := by
        simp only [List.length_cons] at hlen ⊢
        omega
      rw [this, List.drop_one, List.tail_cons]
    rw [hlast] at hkeys
    have hanotint : a ∉ t := (List.nodup_cons.mp hnodup).1
    constructor
    · rw [FastButtonCache.has_message]
      have : alookup ((FastButtonCache.init N).runOps ((a :: t).map mkUpd)).cache a
          = none := by
        rw [alookup_eq_none_iff]
        show a ∉ ((FastButtonCache.init N).runOps ((a :: t).map mkUpd)).keys
        rw [hkeys]
        exact hanotint
      rw [this]
      rfl
    · intro b hb
      rw [FastButtonCache.has_message, alookup_isSome_iff]
      show b ∈ ((FastButtonCache.init N).runOps ((a :: t).map mkUpd)).keys
      rw [hkeys]
      exact hb
  · intro c id h
    rw [FastButtonCache.has_message] at h
    obtain ⟨m, hm⟩ := Option.isSome_iff_exists.mp h
    rw [FastButtonCache.keys, get_message_cache_found c id m hm, List.map_append,
      map_fst_filter_ne]
    rfl

/-- Claim C2 (witness): the theorem applied at capacity 1 with updates
for ids 1 and 2 (the first-updated id 1 is evicted, id 2 survives), at a
concrete operation sequence for the capacity bound, and at a concrete
one-entry cache for the get-refreshes-recency part. -/
theorem C2_witness :
    ([1, 2] : List ℕ).Nodup
    ∧ ([1, 2] : List ℕ).length = 1 + 1
    ∧ ((FastButtonCache.init 1).runOps (([1, 2] : List ℕ).map mkUpd)).has_message 1 = false
    ∧ ((FastButtonCache.init 1).runOps (([1, 2] : List ℕ).map mkUpd)).has_message 2 = true
    ∧ ((FastButtonCache.init 3).runOps [mkUpd 5, .get 5, mkUpd 6]).cache.length ≤ 3
    ∧ sampleCache.has_message 3 = true
    ∧ (sampleCache.get_message 3).2.keys = sampleCache.keys.filter (fun x => x != 3) ++ [3] := by
  have h2 := C2_capacity_and_eviction.2.1 1 1 [2] (by decide) (by decide)
  exact ⟨by decide, by decide, h2.1, h2.2 2 (by decide),
    C2_capacity_and_eviction.1 3 [mkUpd 5, .get 5, mkUpd 6],
    by decide,
    C2_capacity_and_eviction.2.2 sampleCache 3 (by decide)⟩

/- ## Claim C3 -/

theorem record_edit_strategy (d : FastStabilizationDetector) (id : ℕ) (t : ℚ) :
    (d.record_edit id t).strategy = d.strategy := by
  simp only [FastStabilizationDetector.record_edit]
  split_ifs <;> rfl

theorem record_edit_threshold (d : FastStabilizationDetector) (id : ℕ) (t : ℚ) :
    (d.record_edit id t).threshold = d.threshold := by
  simp only [FastStabilizationDetector.record_edit]
  split_ifs <;> rfl

theorem record_edit_last_edits (d : FastStabilizationDetector) (id : ℕ) (t : ℚ) :
    (d.record_edit id t).last_edits
      = (id, t) :: d.last_edits.filter (fun p => p.1 != id) := by
  simp only [FastStabilizationDetector.record_edit]
  split_ifs <;> rfl

/-- Claim C3 (confirmed): on the fast detector, under any of the three
strategies and any positive threshold, is_stabilized is false when
queried at the moment an edit was just recorded, and at any later query
time it is true exactly when the elapsed time reaches the strategy's
effective threshold: elapsed ≥ threshold for wait, elapsed ≥ threshold/2
for aggressive, and for predict elapsed ≥ threshold together with
(fewer than 2 stored history samples, or elapsed > twice the mean
inter-edit interval of the stored history). -/
theorem C3_threshold_semantics :
    ∀ (d : FastStabilizationDetector) (id : ℕ) (t now : ℚ),
      0 < d.threshold →
      (d.strategy = "wait" ∨ d.strategy = "aggressive" ∨ d.strategy = "predict") →
      (d.record_edit id t).is_stabilized id t = false
      ∧ (d.record_edit id t).is_stabilized id now
          = (if d.strategy = "wait" then decide (now - t ≥ d.threshold)
             else if d.strategy = "aggressive" then decide (now - t ≥ d.threshold / 2)
             else decide (now - t ≥ d.threshold
                    ∧ ((histOf (d.record_edit id t) id).length < 2
                       ∨ now - t > meanInterval (histOf (d.record_edit id t) id) * 2))) := by
  intro d id t now hpos hstrat
  have hle : alookup (d.record_edit id t).last_edits id = some t := by
    rw [record_edit_last_edits, alookup_cons_self]
  rcases hstrat with hs | hs | hs
  · -- wait strategy
    constructor
    · simp only [FastStabilizationDetector.is_stabilized, hle, record_edit_strategy,
        record_edit_threshold, hs]
      simp only [sub_self]
      simp [decide_eq_false_iff_not]
      exact hpos
    · simp only [FastStabilizationDetector.is_stabilized, hle, record_edit_strategy,
        record_edit_threshold, hs]
      simp
  · -- aggressive strategy
    have hhalf : d.threshold * (1 / 2) = d.threshold / 2 := by ring
    constructor
    · simp only [FastStabilizationDetector.is_stabilized, hle, record_edit_strategy,
        record_edit_threshold, hs]
      simp only [sub_self]
      simp [decide_eq_false_iff_not]
      linarith
    · simp only [FastStabilizationDetector.is_stabilized, hle, record_edit_strategy,
        record_edit_threshold, hs, hhalf]
      simp
  · -- predict strategy
    have hH : ∃ H : List ℚ, (d.record_edit id t).edit_times
        = (id, H) :: d.edit_times.filter (fun p => p.1 != id) := by
      simp only [FastStabilizationDetector.record_edit, if_pos hs]
      exact ⟨_, rfl⟩
    obtain ⟨H, hHeq⟩ := hH
    have hlook : alookup (d.record_edit id t).edit_times id = some H := by
      rw [hHeq, alookup_cons_self]
    have hhist : histOf (d.record_edit id t) id = H := by
      rw [histOf, hlook]
      rfl
    constructor
    · simp only [FastStabilizationDetector.is_stabilized, hle, record_edit_strategy,
        record_edit_threshold, hs]
      simp only [sub_self]
      simp [hpos]
    · rw [hhist]
      simp only [FastStabilizationDetector.is_stabilized, hle, record_edit_strategy,
        record_edit_threshold, hs, hlook]
      simp only [if_neg (show ¬("predict" : String) = "aggressive" by decide),
        if_neg (show ¬("predict" : String) = "wait" by decide), if_true]
      by_cases hlt : now - t < d.threshold
      · rw [if_pos hlt, eq_comm, decide_eq_false_iff_not]
        rintro ⟨hge, _⟩
        linarith
      · rw [if_neg hlt]
        have hge : now - t ≥ d.threshold := not_lt.mp hlt
        by_cases hlen2 : H.length < 2
        · rw [if_pos hlen2, decide_eq_decide]
          constructor
          · intro _; exact ⟨hge, Or.inl hlen2⟩
          · intro _; exact hge
        · rw [if_neg hlen2, decide_eq_decide]
          constructor
          · intro hb; exact ⟨hge, Or.inr hb⟩
          · rintro ⟨_, hor⟩
            rcases hor with h | h
            · exact absurd h hlen2
            · exact h

/-- Claim C3 (witness): the theorem applied to a concrete wait-strategy
detector with threshold 3/20 at record time 0 and query time 0. -/
theorem C3_witness :
    (0 : ℚ) < (FastStabilizationDetector.init (3 / 20) "wait" 20).threshold
    ∧ ((FastStabilizationDetector.init (3 / 20) "wait" 20).strategy = "wait"
       ∨ (FastStabilizationDetector.init (3 / 20) "wait" 20).strategy = "aggressive"
       ∨ (FastStabilizationDetector.init (3 / 20) "wait" 20).strategy = "predict")
    ∧ ((FastStabilizationDetector.init (3 / 20) "wait" 20).record_edit 1 0).is_stabilized 1 0
        = false := by
  refine ⟨by norm_num [FastStabilizationDetector.init], Or.inl rfl, ?_⟩
  exact (C3_threshold_semantics (FastStabilizationDetector.init (3 / 20) "wait" 20) 1 0 0
    (by norm_num [FastStabilizationDetector.init]) (Or.inl rfl)).1

/- ## Claim C9 -/

/-- Claim C9 (confirmed): for the wait and aggressive strategies the
optimized detector and the original detector compute the same stability
predicate — given the same threshold, the same recorded last-edit time
and the same query time, both answer elapsed ≥ threshold (wait) and
elapsed ≥ threshold·(1/2) (aggressive), whatever edit histories either
detector happens to hold. -/
theorem C9_fast_refines_original :
    ∀ (thr last_edit now : ℚ) (id maxh : ℕ) (fhist : List (ℕ × List ℚ)) (ohist : List ℚ),
      (FastStabilizationDetector.is_stabilized ⟨thr, "wait", maxh, [(id, last_edit)], fhist⟩ id now
          = StabilizationDetector.is_stabilized ⟨thr, "wait", [(id, ⟨id, ohist, some last_edit⟩)]⟩ id now
        ∧ FastStabilizationDetector.is_stabilized ⟨thr, "wait", maxh, [(id, last_edit)], fhist⟩ id now
          = decide (now - last_edit ≥ thr))
      ∧ (FastStabilizationDetector.is_stabilized ⟨thr, "aggressive", maxh, [(id, last_edit)], fhist⟩ id now
          = StabilizationDetector.is_stabilized
              ⟨thr, "aggressive", [(id, ⟨id, ohist, some last_edit⟩)]⟩ id now
        ∧ FastStabilizationDetector.is_stabilized ⟨thr, "aggressive", maxh, [(id, last_edit)], fhist⟩ id now
          = decide (now - last_edit ≥ thr * (1 / 2))) := by
  intro thr last_edit now id maxh fhist ohist
  refine ⟨⟨?_, ?_⟩, ⟨?_, ?_⟩⟩ <;>
    simp [FastStabilizationDetector.is_stabilized, StabilizationDetector.is_stabilized,
      alookup]

/- ## Claim C10 -/

/-- Claim C10 (confirmed): for a message id with no recorded edit — never
recorded, or removed by clear_history — is_stabilized answers false and
get_time_since_last_edit answers none, for every strategy and threshold
(the state is quantified over all detector states, so all strategies are
covered), on both the optimized and the original detector, and both
functions are total (no exception path exists in the model). -/
theorem C10_unknown_message :
    ∀ (df : FastStabilizationDetector) (ds : StabilizationDetector) (id : ℕ) (now : ℚ),
      (alookup df.last_edits id = none →
        df.is_stabilized id now = false ∧ df.get_time_since_last_edit id now = none)
      ∧ ((df.clear_history id).is_stabilized id now = false
          ∧ (df.clear_history id).get_time_since_last_edit id now = none)
      ∧ (alookup ds.edit_histories id = none → ds.is_stabilized id now = false) := by
  intro df ds id now
  refine ⟨fun h => ⟨?_, ?_⟩, ⟨?_, ?_⟩, fun h => ?_⟩
  · simp [FastStabilizationDetector.is_stabilized, h]
  · simp [FastStabilizationDetector.get_time_since_last_edit, h]
  · simp [FastStabilizationDetector.is_stabilized, FastStabilizationDetector.clear_history,
      alookup_filter_ne_self]
  · simp [FastStabilizationDetector.get_time_since_last_edit,
      FastStabilizationDetector.clear_history, alookup_filter_ne_self]
  · simp [StabilizationDetector.is_stabilized, h]

/-- Claim C10 (witness): the theorem applied to concrete empty detectors
(predict-strategy fast detector, wait-strategy original detector). -/
theorem C10_witness :
    alookup (FastStabilizationDetector.init 1 "predict" 20).last_edits 1 = none
    ∧ (FastStabilizationDetector.init 1 "predict" 20).is_stabilized 1 0 = false
    ∧ (FastStabilizationDetector.init 1 "predict" 20).get_time_since_last_edit 1 0 = none
    ∧ alookup (StabilizationDetector.mk 1 "wait" []).edit_histories 1 = none
    ∧ (StabilizationDetector.mk 1 "wait" []).is_stabilized 1 0 = false := by
  refine ⟨rfl, ?_, ?_, rfl, ?_⟩
  · exact ((C10_unknown_message (FastStabilizationDetector.init 1 "predict" 20)
      (StabilizationDetector.mk 1 "wait" []) 1 0).1 rfl).1
  · exact ((C10_unknown_message (FastStabilizationDetector.init 1 "predict" 20)
      (StabilizationDetector.mk 1 "wait" []) 1 0).1 rfl).2
  · exact (C10_unknown_message (FastStabilizationDetector.init 1 "predict" 20)
      (StabilizationDetector.mk 1 "wait" []) 1 0).2.2 rfl

/- ## Claim C5 -/

/-- Claim C5 (code bug): the claim — and FastButtonCache's own docstring
"Get most recently updated message" — say latest() returns the
most-recently-updated entry regardless of later get calls.  On the fast
cache, after update(1), update(2), get(1), get_latest_message returns
message 1 (a get moves its entry to the back of the OrderedDict), even
though message 2 is the most-recently-updated entry; the original
ButtonCache, which selects by maximal last_edit_time, returns message 2
on the same history, as the claim demands. -/
theorem C5_latest_follows_get :
    (((FastButtonCache.init 10).runOps [mkUpd 1, mkUpd 2, .get 1]).get_latest_message).map
        (fun m => m.message_id) = some 1
    ∧ ((((ButtonCache.init 10).update_message 1 0 [] [] 0).update_message
          2 0 [] [] 1).get_latest_message).map (fun m => m.message_id) = some 2 := by
  constructor
  · rfl
  · decide

/- ## Claim C8 -/

/-- Claim C8 (counterexample): with max_retries = 3 and the remote
raising stale-message errors on the first two attempts then succeeding,
the call does succeed after 3 attempts — but the running totals exposed
by the statistics accessor record one click call (total_clicks = 1,
successful_clicks = 1), not attempts = 3: the per-attempt count is not
recorded in the statistics. -/
theorem C8_counterexample :
    (click_button 3 (1 / 10) staleThenOkOutcomes ⟨0, 0, 0⟩).1.result.success = true
    ∧ (click_button 3 (1 / 10) staleThenOkOutcomes ⟨0, 0, 0⟩).1.attempts_used = 3
    ∧ get_statistics (click_button 3 (1 / 10) staleThenOkOutcomes ⟨0, 0, 0⟩).2 = (1, 1, 0)
    ∧ (get_statistics (click_button 3 (1 / 10) staleThenOkOutcomes ⟨0, 0, 0⟩).2).1 ≠ 3 := by
  exact ⟨rfl, rfl, rfl, by decide⟩

/-- Claim C8 (amended): in the two-stale-failures-then-success scenario
with max_retries = 3, the overall outcome is success and the loop
performed 3 attempts, while the executor's running totals (the
statistics accessor's counters) record exactly one additional call:
total_clicks + 1 and successful_clicks + 1, with failed_clicks
unchanged — the number of internal attempts is not exposed. -/
theorem C8_amended :
    ∀ (retry_delay : ℚ) (stats : ClickStats),
      click_button 3 retry_delay staleThenOkOutcomes stats
        = (⟨⟨true, .clicked⟩, 3, [retry_delay, retry_delay]⟩,
           ⟨stats.total_clicks + 1, stats.successful_clicks + 1, stats.failed_clicks⟩) := by
  intro retry_delay stats
  rfl

/- ## Claim C7 -/

/-- Claim C7 (counterexample): the claim says a rate-limited attempt with
a mandated wait of at most 60 seconds is retried unconditionally, with
such retries not counting against the retry maximum — so with
max_retries = 3 and every attempt rate-limited at 1 second the call
could never fail with a retry-exhaustion outcome.  On the code it does:
every flood-wait retry consumes a loop attempt, and after 3 rate-limited
attempts (each with wait 1 ≤ 60) the call returns the Max-retries-
exceeded failure. -/
theorem C7_counterexample :
    (click_button 3 (1 / 10) floodSmallOutcomes ⟨0, 0, 0⟩).1.result.success = false
    ∧ (click_button 3 (1 / 10) floodSmallOutcomes ⟨0, 0, 0⟩).1.result.message
        = .maxRetriesExceeded
    ∧ (click_button 3 (1 / 10) floodSmallOutcomes ⟨0, 0, 0⟩).1.attempts_used = 3
    ∧ (click_button 3 (1 / 10) floodSmallOutcomes ⟨0, 0, 0⟩).1.sleeps = [1, 1, 1] := by
  exact ⟨rfl, rfl, rfl, by decide⟩

/-- On an attempt oracle that always raises a flood wait of at most 60
seconds, the retry loop sleeps and retries until its attempts run out
and then reports the Max-retries-exceeded failure after exactly
`remaining` further attempts. -/
theorem clickLoop_all_floodwait (max_retries : ℕ) (retry_delay : ℚ)
    (outcomes : ℕ → AttemptOutcome)
    (hall : ∀ k, ∃ w, outcomes k = .err (.floodWait w) ∧ w ≤ 60) :
    ∀ (remaining attempt : ℕ),
      (clickLoop max_retries retry_delay outcomes remaining attempt).result
          = ⟨false, .maxRetriesExceeded⟩
      ∧ (clickLoop max_retries retry_delay outcomes remaining attempt).attempts_used
          = remaining := by
  intro remaining
  induction remaining with
  | zero => intro attempt; exact ⟨rfl, rfl⟩
  | succ r ih =>
    intro attempt
    obtain ⟨w, hk, hle⟩ := hall attempt
    have hnot : ¬ w > 60 := not_lt.mpr hle
    simp only [clickLoop, hk, hnot, if_false]
    exact ⟨(ih (attempt + 1)).1, by rw [(ih (attempt + 1)).2]⟩

/-- Claim C7 (amended): a rate-limited attempt whose mandated wait
exceeds 60 seconds makes the call fail immediately with the rate-limit
failure outcome; a mandated wait of at most 60 seconds makes the
executor sleep for exactly that duration and retry — but the retry
consumes one of the max_retries loop attempts, so a call whose every
attempt is rate-limited (within the ceiling) fails with the
Max-retries-exceeded outcome after exactly max_retries attempts. -/
theorem C7_amended :
    (∀ (max_retries : ℕ) (retry_delay w : ℚ) (outcomes : ℕ → AttemptOutcome)
        (r attempt : ℕ),
        outcomes attempt = .err (.floodWait w) → w > 60 →
        clickLoop max_retries retry_delay outcomes (r + 1) attempt
          = ⟨⟨false, .floodWaitTooLong w⟩, 1, []⟩)
    ∧ (∀ (max_retries : ℕ) (retry_delay w : ℚ) (outcomes : ℕ → AttemptOutcome)
        (r attempt : ℕ),
        outcomes attempt = .err (.floodWait w) → w ≤ 60 →
        clickLoop max_retries retry_delay outcomes (r + 1) attempt
          = ⟨(clickLoop max_retries retry_delay outcomes r (attempt + 1)).result,
             (clickLoop max_retries retry_delay outcomes r (attempt + 1)).attempts_used + 1,
             w :: (clickLoop max_retries retry_delay outcomes r (attempt + 1)).sleeps⟩)
    ∧ (∀ (max_retries : ℕ) (retry_delay : ℚ) (outcomes : ℕ → AttemptOutcome)
        (stats : ClickStats),
        (∀ k, ∃ w, outcomes k = .err (.floodWait w) ∧ w ≤ 60) →
        (click_button max_retries retry_delay outcomes stats).1.result
            = ⟨false, .maxRetriesExceeded⟩
        ∧ (click_button max_retries retry_delay outcomes stats).1.attempts_used
            = max_retries) := by
  refine ⟨?_, ?_, ?_⟩
  · intro max_retries retry_delay w outcomes r attempt hk hgt
    simp [clickLoop, hk, hgt]
  · intro max_retries retry_delay w outcomes r attempt hk hle
    have hnot : ¬ w > 60 := not_lt.mpr hle
    simp [clickLoop, hk, hnot]
  · intro max_retries retry_delay outcomes stats hall
    have h := clickLoop_all_floodwait max_retries retry_delay outcomes hall max_retries 0
    refine ⟨?_, ?_⟩ <;> simp [click_button, h.1, h.2]

/-- Claim C7 (witness): the three parts of the amended theorem applied at
concrete inputs — a 100-second flood wait (over the ceiling) fails
immediately; a 1-second flood wait sleeps 1 second and retries; a call
whose three attempts are all rate-limited at 1 second ends in the
Max-retries-exceeded failure. -/
theorem C7_witness :
    ((100 : ℚ) > 60
      ∧ clickLoop 3 (1 / 10) floodBigOutcomes 3 0 = ⟨⟨false, .floodWaitTooLong 100⟩, 1, []⟩)
    ∧ ((1 : ℚ) ≤ 60
      ∧ clickLoop 3 (1 / 10) floodSmallOutcomes 3 0
          = ⟨(clickLoop 3 (1 / 10) floodSmallOutcomes 2 1).result,
             (clickLoop 3 (1 / 10) floodSmallOutcomes 2 1).attempts_used + 1,
             1 :: (clickLoop 3 (1 / 10) floodSmallOutcomes 2 1).sleeps⟩)
    ∧ ((click_button 3 (1 / 10) floodSmallOutcomes ⟨0, 0, 0⟩).1.result
          = ⟨false, .maxRetriesExceeded⟩
      ∧ (click_button 3 (1 / 10) floodSmallOutcomes ⟨0, 0, 0⟩).1.attempts_used = 3) := by
  refine ⟨⟨by norm_num, ?_⟩, ⟨by norm_num, ?_⟩, ?_⟩
  · exact C7_amended.1 3 (1 / 10) 100 floodBigOutcomes 2 0 rfl (by norm_num)
  · exact C7_amended.2.1 3 (1 / 10) 1 floodSmallOutcomes 2 0 rfl (by norm_num)
  · exact C7_amended.2.2 3 (1 / 10) floodSmallOutcomes ⟨0, 0, 0⟩
      (fun _ => ⟨1, rfl, by norm_num⟩)

/-- Claim C6 (witness): the no-match part applied to a concrete control
list and keyword list with no matching keyword. -/
theorem C6_witness :
    (∀ b ∈ [FastButtonInfo.mk' [Char.ofNat 97] [] 0 0],
        ∀ kw ∈ [[Char.ofNat 98]],
          substrMatch (lowerStr kw) b.text_lower = false)
    ∧ find_button_by_keywords [FastButtonInfo.mk' [Char.ofNat 97] [] 0 0] [[Char.ofNat 98]]
        = none :=
  ⟨by decide, C6_by_keywords_first_match.2.1 _ _ (by decide)⟩
